import Mathlib

/-!
# Verification of the pnit identity / session security engine

Shallow embedding of the backend security module: `EncryptionManager`,
rate limiting (`checkRateLimit`), account lockout (`checkAccountLockout`,
`handleFailedLogin`, `handleSuccessfulLogin`), audit logging
(`logSecurityEvent`), and session management (`createSession`,
`validateSession`, `refreshSession`, `revokeAllUserSessions`).

Time is modelled as milliseconds (`Nat`), matching the JavaScript
`Date.now()` arithmetic of the source. Database tables are modelled as
Lean lists of row structures; SQL `UPDATE ... WHERE` becomes a map that
rewrites the matching rows (`updWhere`), and `SELECT ... WHERE ... LIMIT 1`
becomes `List.find?`. Random values (tokens, salts, ivs) produced by
`crypto.randomBytes` are passed in as explicit parameters. The external
node `crypto` cipher primitives are modelled symbolically (an ideal KDF,
an ideal hash fingerprint, and an ideal AEAD cipher: constructors are
injective, and authentication succeeds exactly when key, additional
authenticated data, and tag match the encrypting ones).
-/

namespace Pnit

/-! ## Cryptographic primitives (symbolic model of node `crypto`)

The source calls `crypto.pbkdf2Sync`, `crypto.createHash('sha256')`, and
`crypto.createCipher`/`createDecipher` with `aes-256-gcm`. These live in
the node standard library, not the repository, so they are modelled as an
ideal key-derivation function, an ideal (collision-free) fingerprint, and
an ideal AEAD cipher. -/

/-- Ideal model of `crypto.pbkdf2Sync(password, salt, 100000, 32, 'sha256')`:
the derived key is determined by, and determines, the password/salt pair. -/
structure DerivedKey where
  password : String
  salt : Nat
deriving Repr, DecidableEq

/-- Source `deriveKey(password, salt)` (a `pbkdf2Sync` call with the
fixed iteration count `KEY_DERIVATION_ITERATIONS`). -/
def deriveKey (password : String) (salt : Nat) : DerivedKey :=
  ⟨password, salt⟩

/-- Ideal model of the truncated SHA-256 key fingerprint
`createHash('sha256').update(masterKey).digest('hex').substring(0, 16)`:
modelled as collision-free (injective in the master key). -/
structure KeyFingerprint where
  key : String
deriving Repr, DecidableEq

def keyFingerprint (masterKey : String) : KeyFingerprint :=
  ⟨masterKey⟩

/-- Symbolic AEAD ciphertext: `createCipher(alg, key)` + `setAAD(salt)` +
`update`/`final` over the UTF-8 plaintext. -/
structure AeadCipherText where
  key : DerivedKey
  aad : Nat
  plain : String
deriving Repr, DecidableEq

/-- Symbolic AEAD authentication tag (`cipher.getAuthTag()`). -/
structure AeadAuthTag where
  key : DerivedKey
  aad : Nat
  plain : String
deriving Repr, DecidableEq

def aeadEncrypt (key : DerivedKey) (aad : Nat) (plain : String) :
    AeadCipherText × AeadAuthTag :=
  (⟨key, aad, plain⟩, ⟨key, aad, plain⟩)

inductive CryptoError where
  /-- Raised by `throw new Error('Encryption key mismatch')`. -/
  | keyMismatch
  /-- A `decipher.final()` authentication failure (wrong key / AAD / tag). -/
  | authFailure
  /-- A `JSON.parse` failure on the decrypted string. -/
  | jsonParse
deriving Repr, DecidableEq

/-- Symbolic AEAD decryption: `createDecipher(alg, key)` + `setAAD` +
`setAuthTag` + `update`/`final`. Succeeds iff the key and AAD match the
ones used to encrypt and the tag is the genuine tag of this ciphertext. -/
def aeadDecrypt (key : DerivedKey) (aad : Nat) (tag : AeadAuthTag)
    (ct : AeadCipherText) : Except CryptoError String :=
  if ct.key = key ∧ ct.aad = aad ∧ tag = ⟨key, aad, ct.plain⟩ then
    .ok ct.plain
  else
    .error .authFailure

/-! ## EncryptionManager -/

/-- The record returned by `EncryptionManager.encrypt`. -/
structure EncryptedRecord where
  encrypted : AeadCipherText
  salt : Nat
  iv : Nat
  authTag : AeadAuthTag
  keyId : KeyFingerprint
deriving Repr, DecidableEq

/-- The `EncryptionManager`: holds one master key. -/
structure EncryptionManager where
  masterKey : String
deriving Repr, DecidableEq

/-- Source `EncryptionManager.encrypt(data)`. The random `salt` and `iv`
(`crypto.randomBytes(16)`) are passed in explicitly; `stringify` stands
for `JSON.stringify` on the caller's data type. The source stores the
random `iv` in the record but never feeds it to the cipher
(`createCipher` takes only the algorithm and the key). -/
def EncryptionManager.encrypt {α : Type} (m : EncryptionManager)
    (stringify : α → String) (salt iv : Nat) (data : α) : EncryptedRecord :=
  let key := deriveKey m.masterKey salt
  let (ct, tag) := aeadEncrypt key salt (stringify data)
  { encrypted := ct
    salt := salt
    iv := iv
    authTag := tag
    keyId := keyFingerprint m.masterKey }

/-- Source `EncryptionManager.decrypt(encryptedData)`. First compares the stored
`keyId` against the fingerprint of the current master key and throws
`'Encryption key mismatch'` on disagreement; then re-derives the key from
the stored salt, runs authenticated decryption, and finally `JSON.parse`s
the plaintext (`parse` stands for `JSON.parse` at the caller's data type).
The stored `iv` is destructured but never used: `createDecipher` takes
only the algorithm and the key. -/
def EncryptionManager.decrypt {α : Type} (m : EncryptionManager)
    (parse : String → Option α) (r : EncryptedRecord) :
    Except CryptoError α :=
  let currentKeyId := keyFingerprint m.masterKey
  if r.keyId ≠ currentKeyId then
    .error .keyMismatch
  else
    let key := deriveKey m.masterKey r.salt
    match aeadDecrypt key r.salt r.authTag r.encrypted with
    | .error e => .error e
    | .ok s =>
      match parse s with
      | some v => .ok v
      | none => .error .jsonParse

/-! ## Shared database-table helpers -/

/-- SQL `UPDATE ... SET (f) WHERE p`: rewrite every row satisfying `p`. -/
def updWhere {α : Type} (p : α → Bool) (f : α → α) (l : List α) : List α :=
  l.map (fun r => if p r then f r else r)

/-- One kind of storage failure (`db.query` rejecting). -/
inductive DbFailure where
  | failure
deriving Repr, DecidableEq

/-! ## Account lockout (`ACCOUNT_LOCKOUT`, `checkAccountLockout`,
`handleFailedLogin`, `handleSuccessfulLogin`) -/

/-- A row of the `users` table (the columns the security module touches). -/
structure UserRow where
  id : Nat
  failed_login_attempts : Nat
  locked_until : Option Nat
  last_login : Option Nat
deriving Repr, DecidableEq

abbrev UsersTable := List UserRow

/-- Source `ACCOUNT_LOCKOUT.threshold`. -/
def lockoutThreshold : Nat := 5

/-- Source `ACCOUNT_LOCKOUT.duration` (30 minutes, in milliseconds). -/
def lockoutDuration : Nat := 30 * 60 * 1000

/-- The row update performed by `handleFailedLogin`'s SQL:
`failed_login_attempts := failed_login_attempts + 1` and
`locked_until := CASE WHEN failed_login_attempts + 1 >= threshold
THEN NOW() + duration ELSE locked_until END`. -/
def bumpFailedLogin (now : Nat) (r : UserRow) : UserRow :=
  { r with
    failed_login_attempts := r.failed_login_attempts + 1
    locked_until :=
      if lockoutThreshold ≤ r.failed_login_attempts + 1 then
        some (now + lockoutDuration)
      else r.locked_until }

/-- Source `handleFailedLogin(userId)` (its effect on the `users` table; the
audit-log side effect is modelled by `logSecurityEvent` below and cannot
change the `users` table). -/
def handleFailedLogin (now userId : Nat) (users : UsersTable) : UsersTable :=
  updWhere (fun r => r.id = userId) (bumpFailedLogin now) users

/-- The row update of `checkAccountLockout`'s lazy unlock:
`SET failed_login_attempts = 0, locked_until = NULL`. -/
def clearLockout (r : UserRow) : UserRow :=
  { r with failed_login_attempts := 0, locked_until := none }

/-- Source `checkAccountLockout(userId)`: returns whether the account is locked,
together with the resulting `users` table (an expired lockout is lazily
cleared as a side effect of the check). A missing user yields `false`. -/
def checkAccountLockout (now userId : Nat) (users : UsersTable) :
    Bool × UsersTable :=
  match users.find? (fun r => r.id = userId) with
  | none => (false, users)
  | some r =>
    match r.locked_until with
    | some lu =>
      if now < lu then
        (true, users)
      else
        (false, updWhere (fun u => u.id = userId) clearLockout users)
    | none => (false, users)

/-- Five consecutive `handleFailedLogin` calls for one account, at times
`t1 ≤ ... ≤ t5` (the times of the first four do not influence the final
state: the lockout timestamp is taken from the fifth call). -/
def afterFiveFailures (t1 t2 t3 t4 t5 uid : Nat) (users : UsersTable) :
    UsersTable :=
  handleFailedLogin t5 uid (handleFailedLogin t4 uid (handleFailedLogin t3 uid
    (handleFailedLogin t2 uid (handleFailedLogin t1 uid users))))

/-- The row update of `handleSuccessfulLogin`'s SQL:
`SET failed_login_attempts = 0, locked_until = NULL, last_login = NOW()`. -/
def resetOnLoginSuccess (now : Nat) (r : UserRow) : UserRow :=
  { r with
    failed_login_attempts := 0
    locked_until := none
    last_login := some now }

/-! ## Security audit logging (`logSecurityEvent`) -/

/-- A row of the `security_audit_log` table (`details` is the
JSON-stringified detail map). -/
structure AuditEvent where
  user_id : Option Nat
  event_type : String
  ip_address : String
  user_agent : String
  success : Bool
  details : String
deriving Repr, DecidableEq

/-- The audit-log backend: the stored events plus whether the `INSERT`
query raises. -/
structure AuditDb where
  log : List AuditEvent
  failing : Bool
deriving Repr, DecidableEq

/-- The `INSERT INTO security_audit_log ...` query: appends the event, or
raises when the backend is failing. -/
def auditInsert (db : AuditDb) (e : AuditEvent) : Except DbFailure AuditDb :=
  if db.failing then .error .failure else .ok { db with log := e :: db.log }

/-- Source `logSecurityEvent(...)`: performs the audit insert inside
`try ... catch`, so a storage failure is swallowed (the log is simply left
as it was) and the function always returns normally. -/
def logSecurityEvent (db : AuditDb) (e : AuditEvent) : AuditDb :=
  match auditInsert db e with
  | .ok db' => db'
  | .error _ => db

/-- Source `handleSuccessfulLogin(userId, ipAddress, userAgent)`: resets the
failure counter, clears any lockout, stamps `last_login`, then records a
`'login'` audit event. Returns the resulting `users` table and audit
backend. -/
def handleSuccessfulLogin (now userId : Nat) (ip ua : String)
    (users : UsersTable) (adb : AuditDb) : UsersTable × AuditDb :=
  let users' := updWhere (fun r => r.id = userId) (resetOnLoginSuccess now) users
  let adb' := logSecurityEvent adb
    { user_id := some userId
      event_type := "login"
      ip_address := ip
      user_agent := ua
      success := true
      details := "\x7b\x7d" }
  (users', adb')

end Pnit

namespace Pnit

/-! ## Rate limiting (`RATE_LIMITS`, `checkRateLimit`) -/

/-- One entry of the `RATE_LIMITS` configuration table. -/
structure LimitCfg where
  requests : Nat
  window : Nat
deriving Repr, DecidableEq

/-- The `RATE_LIMITS` lookup (windows in milliseconds). -/
def RATE_LIMITS (endpoint : String) : Option LimitCfg :=
  if endpoint = "login" then some ⟨5, 15 * 60 * 1000⟩
  else if endpoint = "register" then some ⟨3, 60 * 60 * 1000⟩
  else if endpoint = "api" then some ⟨100, 60 * 60 * 1000⟩
  else if endpoint = "password_reset" then some ⟨3, 60 * 60 * 1000⟩
  else none

/-- The `rate_limits` row for one `(identifier, endpoint)` pair (the spec
keeps one row per pair; the queries of `checkRateLimit` read and write
only the pair's own row, so the state relevant to one pair is
`Option RateLimitRow`). -/
structure RateLimitRow where
  requests_count : Nat
  window_start : Nat
  blocked_until : Option Nat
deriving Repr, DecidableEq

/-- The state transition of `checkRateLimit`'s `try` block for one
`(identifier, endpoint)` pair with configuration `cfg`, assuming every
`db.query` succeeds: returns whether the request is allowed and the
resulting row. The source's window test `window_start > now - window`
(over signed millisecond arithmetic) is written subtraction-free as
`now < window_start + window`. -/
def rateLimitStep (cfg : LimitCfg) (now : Nat) (row : Option RateLimitRow) :
    Bool × Option RateLimitRow :=
  match row with
  | some r =>
    -- "Check if currently blocked"
    if (match r.blocked_until with
        | some b => decide (now < b)
        | none => false) then
      (false, some r)
    -- "Check if within current window"
    else if now < r.window_start + cfg.window then
      if cfg.requests ≤ r.requests_count then
        -- "Block for window duration" (the count is not incremented)
        (false, some { r with blocked_until := some (now + cfg.window) })
      else
        -- "Increment counter"
        (true, some { r with requests_count := r.requests_count + 1 })
    else
      -- "New window, reset counter"
      (true, some ⟨1, now, none⟩)
  | none =>
    -- "First request"
    (true, some ⟨1, now, none⟩)

/-- Source `checkRateLimit(identifier, endpoint)` for an endpoint name: an
endpoint without a configured limit is always allowed. -/
def checkRateLimit (endpoint : String) (now : Nat)
    (row : Option RateLimitRow) : Bool × Option RateLimitRow :=
  match RATE_LIMITS endpoint with
  | none => (true, row)
  | some cfg => rateLimitStep cfg now row

/-- A sequence of `checkRateLimit` calls for one pair at the given times:
returns the list of allow/deny outcomes and the final row. -/
def runRateLimitCalls (cfg : LimitCfg) (times : List Nat)
    (row : Option RateLimitRow) : List Bool × Option RateLimitRow :=
  match times with
  | [] => ([], row)
  | t :: ts =>
    let step := rateLimitStep cfg t row
    let rest := runRateLimitCalls cfg ts step.2
    (step.1 :: rest.1, rest.2)

/-- The outcome of each `db.query` call site inside `checkRateLimit`'s
`try` block (each either returns its result or raises).
`logSecurityEvent` swallows its own storage errors, so it has no failure
outcome here. -/
structure RateLimitDb where
  selectRow : Except DbFailure (Option RateLimitRow)
  setBlocked : Except DbFailure Unit
  incrementCount : Except DbFailure Unit
  resetWindow : Except DbFailure Unit
  insertFirst : Except DbFailure Unit

/-- The `checkRateLimit` function's `try` block with explicit `db.query` outcomes: any
raising query aborts the block with its error. -/
def checkRateLimitTry (cfg : LimitCfg) (now : Nat) (db : RateLimitDb) :
    Except DbFailure Bool := do
  let row ← db.selectRow
  match row with
  | some r =>
    if (match r.blocked_until with
        | some b => decide (now < b)
        | none => false) then
      return false
    else if now < r.window_start + cfg.window then
      if cfg.requests ≤ r.requests_count then do
        let _ ← db.setBlocked
        return false
      else do
        let _ ← db.incrementCount
        return true
    else do
      let _ ← db.resetWindow
      return true
  | none => do
    let _ ← db.insertFirst
    return true

/-- Source `checkRateLimit` including its `catch`: a storage error makes the
check return `true` ("Allow request on error to avoid blocking legitimate
users"). -/
def checkRateLimitCaught (cfg : LimitCfg) (now : Nat) (db : RateLimitDb) :
    Bool :=
  match checkRateLimitTry cfg now db with
  | .ok allowed => allowed
  | .error _ => true

/-! ## Session management -/

/-- A row of the `user_sessions` table. `INSERT` does not list
`is_active`, whose column default is `true` (a freshly issued session is
Active). -/
structure SessionRow where
  id : Nat
  user_id : Nat
  session_token : Nat
  refresh_token : Nat
  device_info : String
  ip_address : String
  user_agent : String
  expires_at : Nat
  refresh_expires_at : Nat
  last_used : Option Nat
  is_active : Bool
deriving Repr, DecidableEq

abbrev SessionsTable := List SessionRow

/-- Access-token lifetime: `24 * 60 * 60 * 1000` (24 hours). -/
def accessLifetime : Nat := 24 * 60 * 60 * 1000

/-- Refresh-token lifetime: `7 * 24 * 60 * 60 * 1000` (7 days). -/
def refreshLifetime : Nat := 7 * 24 * 60 * 60 * 1000

/-- The value returned by `createSession`. -/
structure CreateResult where
  sessionId : Nat
  sessionToken : Nat
  refreshToken : Nat
  expiresAt : Nat
  refreshExpiresAt : Nat
deriving Repr, DecidableEq

/-- The value returned by `validateSession` (the joined `email`/`name`
columns of the `users` table are data carried along for the caller and
are omitted). -/
structure SessionContext where
  sessionId : Nat
  userId : Nat
  expiresAt : Nat
  refreshExpiresAt : Nat
deriving Repr, DecidableEq

/-- The value returned by `refreshSession`. -/
structure RefreshResult where
  sessionId : Nat
  userId : Nat
  sessionToken : Nat
  refreshToken : Nat
  expiresAt : Nat
  refreshExpiresAt : Nat
deriving Repr, DecidableEq

/-- Source `createSession(userId, deviceInfo, ipAddress, userAgent)`: the two
fresh tokens from `generateSecureToken()` and the row id returned by the
`INSERT` are passed in explicitly; `expires_at = now + 24h`,
`refresh_expires_at = now + 7d`. -/
def createSession (now userId : Nat) (deviceInfo ip ua : String)
    (sessionToken refreshToken newId : Nat) (tbl : SessionsTable) :
    CreateResult × SessionsTable :=
  let expiresAt := now + accessLifetime
  let refreshExpiresAt := now + refreshLifetime
  let row : SessionRow :=
    { id := newId
      user_id := userId
      session_token := sessionToken
      refresh_token := refreshToken
      device_info := deviceInfo
      ip_address := ip
      user_agent := ua
      expires_at := expiresAt
      refresh_expires_at := refreshExpiresAt
      last_used := none
      is_active := true }
  (⟨newId, sessionToken, refreshToken, expiresAt, refreshExpiresAt⟩,
   tbl ++ [row])

/-- The `WHERE` clause of `validateSession`'s `SELECT`:
`session_token = $1 AND is_active = true AND expires_at > NOW()`. -/
def validSessionFilter (now sessionToken : Nat) (s : SessionRow) : Bool :=
  s.session_token = sessionToken && s.is_active && decide (now < s.expires_at)

/-- Source `validateSession(sessionToken)`: returns the owner context (or `null`)
and the table with `last_used` touched on the matched row. -/
def validateSession (now sessionToken : Nat) (tbl : SessionsTable) :
    Option SessionContext × SessionsTable :=
  match tbl.find? (validSessionFilter now sessionToken) with
  | none => (none, tbl)
  | some s =>
    (some ⟨s.id, s.user_id, s.expires_at, s.refresh_expires_at⟩,
     updWhere (fun r => r.id = s.id) (fun r => { r with last_used := some now })
       tbl)

/-- The `WHERE` clause of `refreshSession`'s `SELECT`:
`refresh_token = $1 AND is_active = true AND refresh_expires_at > NOW()`. -/
def refreshableFilter (now refreshToken : Nat) (s : SessionRow) : Bool :=
  s.refresh_token = refreshToken && s.is_active
    && decide (now < s.refresh_expires_at)

/-- The row update of `refreshSession`'s SQL: rotate both tokens in place
and extend both expiries from the refresh time. -/
def rotateSession (now newSessionToken newRefreshToken : Nat)
    (r : SessionRow) : SessionRow :=
  { r with
    session_token := newSessionToken
    refresh_token := newRefreshToken
    expires_at := now + accessLifetime
    refresh_expires_at := now + refreshLifetime
    last_used := some now }

/-- Source `refreshSession(refreshToken)`: `null` if no active, unexpired record
carries the refresh token; otherwise rotates both tokens on the same
record and extends both expiries from `now`. The two fresh tokens from
`generateSecureToken()` are passed in explicitly. -/
def refreshSession (now refreshToken newSessionToken newRefreshToken : Nat)
    (tbl : SessionsTable) : Option RefreshResult × SessionsTable :=
  match tbl.find? (refreshableFilter now refreshToken) with
  | none => (none, tbl)
  | some s =>
    (some ⟨s.id, s.user_id, newSessionToken, newRefreshToken,
       now + accessLifetime, now + refreshLifetime⟩,
     updWhere (fun r => r.id = s.id)
       (rotateSession now newSessionToken newRefreshToken) tbl)

/-- Source `revokeSession(sessionToken)`: marks the matching record inactive. -/
def revokeSession (sessionToken : Nat) (tbl : SessionsTable) :
    SessionsTable :=
  updWhere (fun r => r.session_token = sessionToken)
    (fun r => { r with is_active := false }) tbl

/-- Source `revokeAllUserSessions(userId)`: marks every session of the owner
inactive (`UPDATE user_sessions SET is_active = false WHERE user_id = $1`). -/
def revokeAllUserSessions (userId : Nat) (tbl : SessionsTable) :
    SessionsTable :=
  updWhere (fun r => r.user_id = userId)
    (fun r => { r with is_active := false }) tbl

end Pnit

namespace Pnit

/-! ## Helper lemmas: tracking a uniquely keyed row through table
operations -/

/-- If `a` is the unique row of `l` satisfying `p`, `find?` returns it. -/
theorem find_unique {α : Type} (p : α → Bool) (l : List α) (a : α)
    (ha : a ∈ l) (hpa : p a = true)
    (huniq : ∀ b ∈ l, p b = true → b = a) :
    l.find? p = some a := by
  induction l with
  | nil => cases ha
  | cons x t ih =>
    by_cases hx : p x = true
    · have hxa : x = a := huniq x (List.mem_cons_self x t) hx
      rw [List.find?_cons_of_pos _ hx, hxa]
    · rw [List.find?_cons_of_neg _ (by simpa using hx)]
      have hax : a ≠ x := fun h => hx (h ▸ hpa)
      have hat : a ∈ t := by
        rcases List.mem_cons.mp ha with h | h
        · exact absurd h hax
        · exact h
      exact ih hat (fun b hb hpb => huniq b (List.mem_cons_of_mem x hb) hpb)

/-- Lemma: `updWhere` tracks a uniquely keyed row: the updated row is in the new
table and is still the unique row satisfying `p` there. -/
theorem updWhere_tracks {α : Type} (p : α → Bool) (f : α → α) (l : List α)
    (a : α) (ha : a ∈ l) (hpa : p a = true)
    (huniq : ∀ b ∈ l, p b = true → b = a) :
    f a ∈ updWhere p f l ∧ ∀ b ∈ updWhere p f l, p b = true → b = f a := by
  constructor
  · have h : (if p a then f a else a) ∈ updWhere p f l :=
      List.mem_map_of_mem _ ha
    simpa [hpa] using h
  · intro b hb hpb
    rcases List.mem_map.mp hb with ⟨x, hx, hbx⟩
    by_cases hpx : p x = true
    · have hxa : x = a := huniq x hx hpx
      rw [← hbx, if_pos hpx, hxa]
    · rw [← hbx] at hpb
      simp only [hpx, if_false] at hpb
      exact absurd hpb hpx

/-- Rows not matched by `updWhere`'s predicate are carried over unchanged. -/
theorem updWhere_mem_of_not {α : Type} (p : α → Bool) (f : α → α)
    (l : List α) (a : α) (ha : a ∈ l) (hpa : p a = false) :
    a ∈ updWhere p f l := by
  have h : (if p a then f a else a) ∈ updWhere p f l :=
    List.mem_map_of_mem _ ha
  simpa [hpa] using h

/-- Every row of `updWhere p f l` is either an untouched row of `l` (not
matching `p`) or the image under `f` of a matching row. -/
theorem mem_updWhere {α : Type} (p : α → Bool) (f : α → α) (l : List α)
    (b : α) (hb : b ∈ updWhere p f l) :
    ∃ x ∈ l, (p x = true ∧ b = f x) ∨ (p x = false ∧ b = x) := by
  rcases List.mem_map.mp hb with ⟨x, hx, hbx⟩
  refine ⟨x, hx, ?_⟩
  cases hpx : p x with
  | true => exact Or.inl ⟨rfl, by rw [← hbx, if_pos hpx]⟩
  | false => exact Or.inr ⟨rfl, by rw [← hbx, if_neg (by simp [hpx])]⟩

/-- A run of within-window requests below the threshold: each call is
allowed and increments the counter. -/
theorem runCalls_within_window (cfg : LimitCfg) (ts : List Nat) :
    ∀ (k ws : Nat), (∀ t ∈ ts, t < ws + cfg.window) →
    k + ts.length ≤ cfg.requests →
    runRateLimitCalls cfg ts (some ⟨k, ws, none⟩)
      = (List.replicate ts.length true, some ⟨k + ts.length, ws, none⟩) := by
  induction ts with
  | nil => intro k ws _ _; simp [runRateLimitCalls]
  | cons t ts ih =>
    intro k ws hts hk
    have ht : t < ws + cfg.window := hts t (List.mem_cons_self t ts)
    have hkR : ¬ cfg.requests ≤ k := by
      simp only [List.length_cons] at hk; omega
    have hstep : rateLimitStep cfg t (some ⟨k, ws, none⟩)
        = (true, some ⟨k + 1, ws, none⟩) := by
      simp [rateLimitStep, ht, hkR]
    have hrest := ih (k + 1) ws
      (fun u hu => hts u (List.mem_cons_of_mem t hu))
      (by simp only [List.length_cons] at hk; omega)
    have hsplit : runRateLimitCalls cfg (t :: ts) (some ⟨k, ws, none⟩)
        = ((rateLimitStep cfg t (some ⟨k, ws, none⟩)).1 ::
            (runRateLimitCalls cfg ts
              (rateLimitStep cfg t (some ⟨k, ws, none⟩)).2).1,
           (runRateLimitCalls cfg ts
              (rateLimitStep cfg t (some ⟨k, ws, none⟩)).2).2) := rfl
    have harith : k + 1 + ts.length = k + (ts.length + 1) := by omega
    rw [hsplit, hstep]
    simp only [hrest, List.length_cons, List.replicate_succ, harith]

end Pnit

namespace Pnit

/-- C1: for an account starting at `failed_login_attempts = 0` with no
lockout, five consecutive `handleFailedLogin` calls lock the account:
every `checkAccountLockout` before the 30-minute window (anchored at the
fifth failure) elapses returns `true` and leaves the table unchanged; the
first check at or after the window's end returns `false` and, as a side
effect, resets `failed_login_attempts` to `0` and clears `locked_until`. -/
theorem lockout_after_five_failures
    (users : UsersTable) (uid : Nat) (ll : Option Nat)
    (t1 t2 t3 t4 t5 tearly tlate : Nat)
    (hmem : (⟨uid, 0, none, ll⟩ : UserRow) ∈ users)
    (huniq : ∀ r ∈ users, r.id = uid → r = (⟨uid, 0, none, ll⟩ : UserRow))
    (hearly : tearly < t5 + lockoutDuration)
    (hlate : t5 + lockoutDuration ≤ tlate) :
    checkAccountLockout tearly uid (afterFiveFailures t1 t2 t3 t4 t5 uid users)
      = (true, afterFiveFailures t1 t2 t3 t4 t5 uid users)
    ∧ (checkAccountLockout tlate uid
        (afterFiveFailures t1 t2 t3 t4 t5 uid users)).1 = false
    ∧ (checkAccountLockout tlate uid
        (afterFiveFailures t1 t2 t3 t4 t5 uid users)).2.find?
          (fun r => r.id = uid) = some (⟨uid, 0, none, ll⟩ : UserRow) := by
  have huniq0 : ∀ b ∈ users, (decide (b.id = uid)) = true
      → b = (⟨uid, 0, none, ll⟩ : UserRow) :=
    fun b hb h => huniq b hb (of_decide_eq_true h)
  have H1 := updWhere_tracks (fun r : UserRow => decide (r.id = uid))
    (bumpFailedLogin t1) users _ hmem (by simp) huniq0
  rw [show bumpFailedLogin t1 ⟨uid, 0, none, ll⟩ = ⟨uid, 1, none, ll⟩
    from rfl] at H1
  have H2 := updWhere_tracks (fun r : UserRow => decide (r.id = uid))
    (bumpFailedLogin t2)
    _ _ H1.1 (by simp) H1.2
  rw [show bumpFailedLogin t2 ⟨uid, 1, none, ll⟩ = ⟨uid, 2, none, ll⟩
    from rfl] at H2
  have H3 := updWhere_tracks (fun r : UserRow => decide (r.id = uid))
    (bumpFailedLogin t3)
    _ _ H2.1 (by simp) H2.2
  rw [show bumpFailedLogin t3 ⟨uid, 2, none, ll⟩ = ⟨uid, 3, none, ll⟩
    from rfl] at H3
  have H4 := updWhere_tracks (fun r : UserRow => decide (r.id = uid))
    (bumpFailedLogin t4)
    _ _ H3.1 (by simp) H3.2
  rw [show bumpFailedLogin t4 ⟨uid, 3, none, ll⟩ = ⟨uid, 4, none, ll⟩
    from rfl] at H4
  have H5 := updWhere_tracks (fun r : UserRow => decide (r.id = uid))
    (bumpFailedLogin t5)
    _ _ H4.1 (by simp) H4.2
  rw [show bumpFailedLogin t5 ⟨uid, 4, none, ll⟩
    = ⟨uid, 5, some (t5 + lockoutDuration), ll⟩ from rfl] at H5
  have hfind : (afterFiveFailures t1 t2 t3 t4 t5 uid users).find?
      (fun r => r.id = uid)
      = some (⟨uid, 5, some (t5 + lockoutDuration), ll⟩ : UserRow) :=
    find_unique _ _ _ H5.1 (by simp) H5.2
  refine ⟨?_, ?_, ?_⟩
  · simp only [checkAccountLockout, hfind]
    rw [if_pos hearly]
  · simp only [checkAccountLockout, hfind]
    rw [if_neg (Nat.not_lt.mpr hlate)]
  · simp only [checkAccountLockout, hfind]
    rw [if_neg (Nat.not_lt.mpr hlate)]
    have H6 := updWhere_tracks (fun r : UserRow => decide (r.id = uid))
      clearLockout
      _ _ H5.1 (by simp) H5.2
    rw [show clearLockout ⟨uid, 5, some (t5 + lockoutDuration), ll⟩
      = ⟨uid, 0, none, ll⟩ from rfl] at H6
    exact find_unique _ _ _ H6.1 (by simp) H6.2

/-- Witness for C1: one account, locked by five failures at time 0,
checked just before and exactly at the lockout deadline. -/
theorem lockout_after_five_failures_witness :
    checkAccountLockout 0 1 (afterFiveFailures 0 0 0 0 0 1 [⟨1, 0, none, none⟩])
      = (true, afterFiveFailures 0 0 0 0 0 1 [⟨1, 0, none, none⟩])
    ∧ (checkAccountLockout 1800000 1
        (afterFiveFailures 0 0 0 0 0 1 [⟨1, 0, none, none⟩])).1 = false
    ∧ (checkAccountLockout 1800000 1
        (afterFiveFailures 0 0 0 0 0 1 [⟨1, 0, none, none⟩])).2.find?
          (fun r => r.id = 1) = some (⟨1, 0, none, none⟩ : UserRow) :=
  lockout_after_five_failures [⟨1, 0, none, none⟩] 1 none 0 0 0 0 0 0 1800000
    (by decide) (by decide) (by decide) (by decide)

/-- C2: decrypt ∘ encrypt is the identity for JSON-round-trippable data
under one master key. -/
theorem decrypt_encrypt_roundtrip {α : Type} (m : EncryptionManager)
    (stringify : α → String) (parse : String → Option α)
    (salt iv : Nat) (x : α)
    (hser : parse (stringify x) = some x) :
    m.decrypt parse (m.encrypt stringify salt iv x) = .ok x := by
  simp [EncryptionManager.decrypt, EncryptionManager.encrypt,
    aeadEncrypt, aeadDecrypt, keyFingerprint, deriveKey, hser]

/-- Witness for C2 at a concrete serializable value. -/
theorem decrypt_encrypt_roundtrip_witness :
    (EncryptionManager.mk "master-key-1").decrypt (fun s => some s)
      ((EncryptionManager.mk "master-key-1").encrypt (fun s => s) 7 9 "api-key-42")
      = .ok "api-key-42" :=
  decrypt_encrypt_roundtrip (EncryptionManager.mk "master-key-1")
    (fun s => s) (fun s => some s) 7 9 "api-key-42" rfl

/-- C3: a record encrypted under master key K1 and decrypted under a
manager holding a different master key K2 fails with the key-mismatch
error (the `keyId` fingerprint check fires before any decryption), so no
plaintext — corrupted or otherwise — is ever returned. -/
theorem decrypt_other_key_mismatch {α : Type} (m1 m2 : EncryptionManager)
    (stringify : α → String) (parse : String → Option α)
    (salt iv : Nat) (x : α)
    (hkeys : m1.masterKey ≠ m2.masterKey) :
    m2.decrypt parse (m1.encrypt stringify salt iv x)
      = .error .keyMismatch := by
  have h : ¬ (keyFingerprint m1.masterKey = keyFingerprint m2.masterKey) :=
    fun hh => hkeys (congrArg KeyFingerprint.key hh)
  simp [EncryptionManager.decrypt, EncryptionManager.encrypt, aeadEncrypt, h]

/-- Witness for C3 at two concrete distinct master keys. -/
theorem decrypt_other_key_mismatch_witness :
    (EncryptionManager.mk "master-key-2").decrypt (fun s => some s)
      ((EncryptionManager.mk "master-key-1").encrypt (fun s => s) 7 9 "secret")
      = .error .keyMismatch :=
  decrypt_other_key_mismatch (EncryptionManager.mk "master-key-1")
    (EncryptionManager.mk "master-key-2") (fun s => s) (fun s => some s)
    7 9 "secret" (by decide)

/-- C10: the stored `iv` field plays no role in decryption — replacing it
by any two values yields identical decryption results — and two encrypt
calls differing only in the random `iv` produce records that differ only
in the stored `iv` field. -/
theorem decrypt_ignores_iv {α : Type} (m : EncryptionManager)
    (stringify : α → String) (parse : String → Option α)
    (r : EncryptedRecord) (salt : Nat) (x : α) (v1 v2 : Nat) :
    m.decrypt parse { r with iv := v1 } = m.decrypt parse { r with iv := v2 }
    ∧ { m.encrypt stringify salt v1 x with iv := 0 }
      = { m.encrypt stringify salt v2 x with iv := 0 } :=
  ⟨rfl, rfl⟩

end Pnit

namespace Pnit

/-- C5: the full rate-limit trajectory for one `(identifier, endpoint)`
pair with limit `R = cfg.requests` per window `W = cfg.window`, starting
with no record: the first call opens a window with count 1 and calls 1..R
(all within `W` of the first) are allowed, ending with count `R`; call
R+1 is denied and sets `blocked_until = now + W` without incrementing;
any call while `blocked_until` lies in the future is denied without
changing the row; and the first call at or after `blocked_until` opens a
fresh window (count reset to 1) and is allowed. -/
theorem rateLimit_scenario (cfg : LimitCfg) (t1 : Nat) (ts : List Nat)
    (tb td ta : Nat)
    (hlen : ts.length + 1 = cfg.requests)
    (hts : ∀ t ∈ ts, t < t1 + cfg.window)
    (htb1 : t1 ≤ tb) (htb : tb < t1 + cfg.window)
    (htd : td < tb + cfg.window)
    (hta : tb + cfg.window ≤ ta) :
    runRateLimitCalls cfg (t1 :: ts) none
      = (List.replicate cfg.requests true, some ⟨cfg.requests, t1, none⟩)
    ∧ rateLimitStep cfg tb (some ⟨cfg.requests, t1, none⟩)
      = (false, some ⟨cfg.requests, t1, some (tb + cfg.window)⟩)
    ∧ rateLimitStep cfg td (some ⟨cfg.requests, t1, some (tb + cfg.window)⟩)
      = (false, some ⟨cfg.requests, t1, some (tb + cfg.window)⟩)
    ∧ rateLimitStep cfg ta (some ⟨cfg.requests, t1, some (tb + cfg.window)⟩)
      = (true, some ⟨1, ta, none⟩) := by
  refine ⟨?_, ?_, ?_, ?_⟩
  · have hrest := runCalls_within_window cfg ts 1 t1 hts (by omega)
    have hsplit : runRateLimitCalls cfg (t1 :: ts) none
        = ((rateLimitStep cfg t1 none).1 ::
            (runRateLimitCalls cfg ts (rateLimitStep cfg t1 none).2).1,
           (runRateLimitCalls cfg ts (rateLimitStep cfg t1 none).2).2) := rfl
    have hfirst : rateLimitStep cfg t1 none = (true, some ⟨1, t1, none⟩) := rfl
    have harith : 1 + ts.length = cfg.requests := by omega
    rw [hsplit, hfirst]
    simp only [hrest, harith, ← hlen, List.replicate_succ]
  · simp [rateLimitStep, htb]
  · simp [rateLimitStep, htd]
  · have h4 : ¬ ta < tb + cfg.window := Nat.not_lt.mpr hta
    have h5 : ¬ ta < t1 + cfg.window :=
      Nat.not_lt.mpr (le_trans (Nat.add_le_add_right htb1 _) hta)
    simp [rateLimitStep, h4, h5]

/-- Witness for C5: limit 2 per 10ms window; calls at 0 and 1 allowed,
call at 2 blocked until 12, call at 5 denied, call at 12 allowed again. -/
theorem rateLimit_scenario_witness :
    runRateLimitCalls ⟨2, 10⟩ [0, 1] none
      = (List.replicate 2 true, some ⟨2, 0, none⟩)
    ∧ rateLimitStep ⟨2, 10⟩ 2 (some ⟨2, 0, none⟩)
      = (false, some ⟨2, 0, some (2 + 10)⟩)
    ∧ rateLimitStep ⟨2, 10⟩ 5 (some ⟨2, 0, some (2 + 10)⟩)
      = (false, some ⟨2, 0, some (2 + 10)⟩)
    ∧ rateLimitStep ⟨2, 10⟩ 12 (some ⟨2, 0, some (2 + 10)⟩)
      = (true, some ⟨1, 12, none⟩) :=
  rateLimit_scenario ⟨2, 10⟩ 0 [1] 2 5 12 (by decide) (by decide)
    (by decide) (by decide) (by decide) (by decide)

/-- C7: if the storage backend fails at any point during the rate-limit
check (the `try` block aborts with an error — in particular when the
initial `SELECT` raises), the check returns `true` (the request is
allowed) instead of propagating the failure or denying the request. -/
theorem rateLimit_fails_open (cfg : LimitCfg) (now : Nat)
    (db : RateLimitDb) (e : DbFailure)
    (hfail : checkRateLimitTry cfg now db = .error e) :
    checkRateLimitCaught cfg now db = true := by
  simp [checkRateLimitCaught, hfail]

/-- Witness for C7: one backend whose `SELECT` raises, and one whose
blocking `UPDATE` raises mid-check; both checks allow the request. -/
theorem rateLimit_fails_open_witness :
    checkRateLimitCaught ⟨5, 900000⟩ 0
      ⟨.error .failure, .ok (), .ok (), .ok (), .ok ()⟩ = true
    ∧ checkRateLimitCaught ⟨5, 900000⟩ 1
      ⟨.ok (some ⟨5, 0, none⟩), .error .failure, .ok (), .ok (), .ok ()⟩
        = true :=
  ⟨rateLimit_fails_open ⟨5, 900000⟩ 0
      ⟨.error .failure, .ok (), .ok (), .ok (), .ok ()⟩ .failure rfl,
   rateLimit_fails_open ⟨5, 900000⟩ 1
      ⟨.ok (some ⟨5, 0, none⟩), .error .failure, .ok (), .ok (), .ok ()⟩
      .failure rfl⟩

end Pnit

namespace Pnit

/-- C8: a failing audit-log insert is caught inside `logSecurityEvent`
(which returns the unchanged log, normally), and the audited operation's
own result — here `handleSuccessfulLogin`'s effect on the `users` table —
is identical whether the audit backend fails or succeeds. -/
theorem audit_failure_swallowed (db : AuditDb) (e : AuditEvent)
    (now uid : Nat) (ip ua : String) (users : UsersTable) (b1 b2 : Bool)
    (hfail : auditInsert db e = .error .failure) :
    logSecurityEvent db e = db
    ∧ (handleSuccessfulLogin now uid ip ua users ⟨db.log, b1⟩).1
      = (handleSuccessfulLogin now uid ip ua users ⟨db.log, b2⟩).1 := by
  constructor
  · simp [logSecurityEvent, hfail]
  · rfl

/-- Witness for C8 at a concrete failing audit backend. -/
theorem audit_failure_swallowed_witness :
    logSecurityEvent ⟨[], true⟩ ⟨none, "login", "ip", "ua", true, "d"⟩
      = ⟨[], true⟩
    ∧ (handleSuccessfulLogin 0 1 "ip" "ua" [⟨1, 3, none, none⟩]
        ⟨([] : List AuditEvent), true⟩).1
      = (handleSuccessfulLogin 0 1 "ip" "ua" [⟨1, 3, none, none⟩]
        ⟨([] : List AuditEvent), false⟩).1 :=
  audit_failure_swallowed ⟨[], true⟩ ⟨none, "login", "ip", "ua", true, "d"⟩
    0 1 "ip" "ua" [⟨1, 3, none, none⟩] true false rfl

/-- C9: both session-mutating operations preserve the invariant that the
refresh expiry is strictly later than the access expiry: every row of the
table after `createSession` (including the new row) and after
`refreshSession` (including the rotated row) satisfies
`expires_at < refresh_expires_at`. -/
theorem session_expiry_invariant (now userId : Nat) (di ip ua : String)
    (st rt newId rt0 nst nrt : Nat) (tbl : SessionsTable)
    (hinv : ∀ r ∈ tbl, r.expires_at < r.refresh_expires_at) :
    (∀ r ∈ (createSession now userId di ip ua st rt newId tbl).2,
      r.expires_at < r.refresh_expires_at)
    ∧ (∀ r ∈ (refreshSession now rt0 nst nrt tbl).2,
      r.expires_at < r.refresh_expires_at) := by
  have hlt : now + accessLifetime < now + refreshLifetime := by
    have h : accessLifetime < refreshLifetime := by decide
    exact Nat.add_lt_add_left h now
  constructor
  · intro r hr
    simp only [createSession, List.mem_append, List.mem_singleton] at hr
    rcases hr with h | h
    · exact hinv r h
    · rw [h]; exact hlt
  · intro r hr
    cases hfind : tbl.find? (refreshableFilter now rt0) with
    | none =>
      have heq : (refreshSession now rt0 nst nrt tbl).2 = tbl := by
        simp [refreshSession, hfind]
      rw [heq] at hr
      exact hinv r hr
    | some s =>
      have heq : (refreshSession now rt0 nst nrt tbl).2
          = updWhere (fun x => x.id = s.id) (rotateSession now nst nrt)
              tbl := by
        simp [refreshSession, hfind]
      rw [heq] at hr
      rcases mem_updWhere _ _ _ _ hr with ⟨x, hx, hcase⟩
      rcases hcase with ⟨_, hbx⟩ | ⟨_, hbx⟩
      · rw [hbx]; exact hlt
      · rw [hbx]; exact hinv x hx

/-- Witness for C9 starting from the empty sessions table. -/
theorem session_expiry_invariant_witness :
    (∀ r ∈ (createSession 0 1 "d" "i" "u" 100 200 1 []).2,
      r.expires_at < r.refresh_expires_at)
    ∧ (∀ r ∈ (refreshSession 0 300 101 201 ([] : SessionsTable)).2,
      r.expires_at < r.refresh_expires_at) :=
  session_expiry_invariant 0 1 "d" "i" "u" 100 200 1 300 101 201 []
    (by simp)

end Pnit

namespace Pnit

/-- C4: `refreshSession` returns `null` (leaving the table unchanged) when
every record carrying the refresh token is inactive or past its refresh
expiry; otherwise it rotates both tokens in place on the same record with
the new access expiry `now + 24h` and the new refresh expiry `now + 7d`
(both measured from the refresh call), after which validating the old
session token returns `null` at any time. -/
theorem refreshSession_spec (now rt nst nrt t2 : Nat) (tbl : SessionsTable)
    (s : SessionRow) :
    ((∀ r ∈ tbl, r.refresh_token = rt
        → r.is_active = false ∨ r.refresh_expires_at ≤ now)
      → refreshSession now rt nst nrt tbl = (none, tbl))
    ∧ (s ∈ tbl → s.refresh_token = rt → s.is_active = true
      → now < s.refresh_expires_at
      → (∀ b ∈ tbl, b.refresh_token = rt → b = s)
      → (∀ b ∈ tbl, b.id = s.id → b = s)
      → (∀ b ∈ tbl, b.session_token = s.session_token → b = s)
      → nst ≠ s.session_token
      → (refreshSession now rt nst nrt tbl).1
          = some ⟨s.id, s.user_id, nst, nrt,
              now + accessLifetime, now + refreshLifetime⟩
        ∧ rotateSession now nst nrt s ∈ (refreshSession now rt nst nrt tbl).2
        ∧ (validateSession t2 s.session_token
            (refreshSession now rt nst nrt tbl).2).1 = none) := by
  constructor
  · intro h
    have hnone : tbl.find? (refreshableFilter now rt) = none := by
      rw [List.find?_eq_none]
      intro x hx hfilter
      simp only [refreshableFilter, Bool.and_eq_true, decide_eq_true_eq]
        at hfilter
      obtain ⟨⟨htok, hact⟩, hexp⟩ := hfilter
      rcases h x hx htok with h1 | h1
      · rw [hact] at h1; simp at h1
      · omega
    simp [refreshSession, hnone]
  · intro hmem htok hact hexp huniqR huniqId huniqSt hnst
    have hps : refreshableFilter now rt s = true := by
      simp [refreshableFilter, htok, hact, hexp]
    have huniq' : ∀ b ∈ tbl, refreshableFilter now rt b = true → b = s := by
      intro b hb hpb
      simp only [refreshableFilter, Bool.and_eq_true, decide_eq_true_eq]
        at hpb
      exact huniqR b hb hpb.1.1
    have hfind : tbl.find? (refreshableFilter now rt) = some s :=
      find_unique _ _ _ hmem hps huniq'
    have huniqId' : ∀ b ∈ tbl, (decide (b.id = s.id)) = true → b = s :=
      fun b hb h => huniqId b hb (of_decide_eq_true h)
    refine ⟨?_, ?_, ?_⟩
    · simp [refreshSession, hfind]
    · have heq : (refreshSession now rt nst nrt tbl).2
          = updWhere (fun x => x.id = s.id) (rotateSession now nst nrt)
              tbl := by
        simp [refreshSession, hfind]
      rw [heq]
      exact (updWhere_tracks (fun r : SessionRow => decide (r.id = s.id))
        (rotateSession now nst nrt) tbl s hmem (by simp) huniqId').1
    · have heq : (refreshSession now rt nst nrt tbl).2
          = updWhere (fun x => x.id = s.id) (rotateSession now nst nrt)
              tbl := by
        simp [refreshSession, hfind]
      rw [heq]
      have hnone : (updWhere (fun x : SessionRow => decide (x.id = s.id))
          (rotateSession now nst nrt) tbl).find?
            (validSessionFilter t2 s.session_token) = none := by
        rw [List.find?_eq_none]
        intro b hb hfilter
        simp only [validSessionFilter, Bool.and_eq_true, decide_eq_true_eq]
          at hfilter
        obtain ⟨⟨hbtok, _⟩, _⟩ := hfilter
        rcases mem_updWhere _ _ _ _ hb with ⟨x, hx, hcase⟩
        rcases hcase with ⟨_, hbx⟩ | ⟨hpx, hbx⟩
        · rw [hbx] at hbtok
          simp only [rotateSession] at hbtok
          exact hnst hbtok
        · rw [hbx] at hbtok
          have hxs : x = s := huniqSt x hx hbtok
          rw [hxs] at hpx
          simp at hpx
      simp [validateSession, hnone]

/-- Witness for C4: a one-row table whose session is refreshed at time 0
(success half) and queried again at time 10, past the refresh expiry 5
(null half). -/
theorem refreshSession_spec_witness :
    (refreshSession 10 200 101 201
        [⟨1, 10, 100, 200, "d", "i", "u", 3, 5, none, true⟩]
      = (none, [⟨1, 10, 100, 200, "d", "i", "u", 3, 5, none, true⟩]))
    ∧ ((refreshSession 0 200 101 201
          [⟨1, 10, 100, 200, "d", "i", "u", 3, 5, none, true⟩]).1
        = some ⟨1, 10, 101, 201, 0 + accessLifetime, 0 + refreshLifetime⟩
      ∧ rotateSession 0 101 201 ⟨1, 10, 100, 200, "d", "i", "u", 3, 5, none, true⟩
          ∈ (refreshSession 0 200 101 201
              [⟨1, 10, 100, 200, "d", "i", "u", 3, 5, none, true⟩]).2
      ∧ (validateSession 99 100
          (refreshSession 0 200 101 201
            [⟨1, 10, 100, 200, "d", "i", "u", 3, 5, none, true⟩]).2).1
          = none) :=
  ⟨(refreshSession_spec 10 200 101 201 99
      [⟨1, 10, 100, 200, "d", "i", "u", 3, 5, none, true⟩]
      ⟨1, 10, 100, 200, "d", "i", "u", 3, 5, none, true⟩).1 (by decide),
   (refreshSession_spec 0 200 101 201 99
      [⟨1, 10, 100, 200, "d", "i", "u", 3, 5, none, true⟩]
      ⟨1, 10, 100, 200, "d", "i", "u", 3, 5, none, true⟩).2
    (by decide) (by decide) (by decide) (by decide) (by decide) (by decide)
    (by decide) (by decide)⟩

end Pnit

namespace Pnit

/-- C6: after `revokeAllUserSessions uid`, validating any session token
whose bearers all belong to `uid` returns `null`; every session record of
any other owner is carried over unchanged, and such a record that was
previously valid (active, unexpired, uniquely holding its token) still
validates successfully. -/
theorem revokeAll_spec (uid now tok : Nat) (tbl : SessionsTable)
    (r : SessionRow) :
    ((∀ b ∈ tbl, b.session_token = tok → b.user_id = uid)
      → (validateSession now tok (revokeAllUserSessions uid tbl)).1 = none)
    ∧ (r ∈ tbl → r.user_id ≠ uid → r ∈ revokeAllUserSessions uid tbl)
    ∧ (r ∈ tbl → r.user_id ≠ uid
      → (∀ b ∈ tbl, b.session_token = r.session_token → b = r)
      → r.is_active = true → now < r.expires_at
      → (validateSession now r.session_token (revokeAllUserSessions uid tbl)).1
          = some ⟨r.id, r.user_id, r.expires_at, r.refresh_expires_at⟩) := by
  refine ⟨?_, ?_, ?_⟩
  · intro h
    have hnone : (revokeAllUserSessions uid tbl).find?
        (validSessionFilter now tok) = none := by
      rw [List.find?_eq_none]
      intro b hb hfilter
      simp only [validSessionFilter, Bool.and_eq_true, decide_eq_true_eq]
        at hfilter
      obtain ⟨⟨hbtok, hbact⟩, _⟩ := hfilter
      rcases mem_updWhere _ _ _ _ hb with ⟨x, hx, hcase⟩
      rcases hcase with ⟨_, hbx⟩ | ⟨hpx, hbx⟩
      · rw [hbx] at hbact
        simp at hbact
      · rw [hbx] at hbtok
        have hux : x.user_id = uid := h x hx hbtok
        rw [hux] at hpx
        simp at hpx
    simp [validateSession, hnone]
  · intro hmem hne
    exact updWhere_mem_of_not _ _ _ _ hmem (by simp [hne])
  · intro hmem hne huniqSt hact hexp
    have hmem' : r ∈ revokeAllUserSessions uid tbl :=
      updWhere_mem_of_not _ _ _ _ hmem (by simp [hne])
    have hpr : validSessionFilter now r.session_token r = true := by
      simp [validSessionFilter, hact, hexp]
    have huniq' : ∀ b ∈ revokeAllUserSessions uid tbl,
        validSessionFilter now r.session_token b = true → b = r := by
      intro b hb hfilter
      simp only [validSessionFilter, Bool.and_eq_true, decide_eq_true_eq]
        at hfilter
      obtain ⟨⟨hbtok, hbact⟩, _⟩ := hfilter
      rcases mem_updWhere _ _ _ _ hb with ⟨x, hx, hcase⟩
      rcases hcase with ⟨_, hbx⟩ | ⟨_, hbx⟩
      · rw [hbx] at hbact
        simp at hbact
      · rw [hbx] at hbtok
        rw [hbx]
        exact huniqSt x hx hbtok
    have hfind : (revokeAllUserSessions uid tbl).find?
        (validSessionFilter now r.session_token) = some r :=
      find_unique _ _ _ hmem' hpr huniq'
    simp [validateSession, hfind]

/-- Witness for C6: a two-owner table; owner 10's session stops
validating after `revokeAllUserSessions 10`, owner 20's row is untouched
and still validates. -/
theorem revokeAll_spec_witness :
    (validateSession 1 100 (revokeAllUserSessions 10
        [⟨1, 10, 100, 200, "a", "i", "u", 9, 99, none, true⟩,
         ⟨2, 20, 300, 400, "b", "j", "v", 9, 99, none, true⟩])).1 = none
    ∧ (⟨2, 20, 300, 400, "b", "j", "v", 9, 99, none, true⟩ : SessionRow)
        ∈ revokeAllUserSessions 10
          [⟨1, 10, 100, 200, "a", "i", "u", 9, 99, none, true⟩,
           ⟨2, 20, 300, 400, "b", "j", "v", 9, 99, none, true⟩]
    ∧ (validateSession 1 300 (revokeAllUserSessions 10
        [⟨1, 10, 100, 200, "a", "i", "u", 9, 99, none, true⟩,
         ⟨2, 20, 300, 400, "b", "j", "v", 9, 99, none, true⟩])).1
        = some ⟨2, 20, 9, 99⟩ :=
  ⟨(revokeAll_spec 10 1 100
      [⟨1, 10, 100, 200, "a", "i", "u", 9, 99, none, true⟩,
       ⟨2, 20, 300, 400, "b", "j", "v", 9, 99, none, true⟩]
      ⟨2, 20, 300, 400, "b", "j", "v", 9, 99, none, true⟩).1 (by decide),
   (revokeAll_spec 10 1 100
      [⟨1, 10, 100, 200, "a", "i", "u", 9, 99, none, true⟩,
       ⟨2, 20, 300, 400, "b", "j", "v", 9, 99, none, true⟩]
      ⟨2, 20, 300, 400, "b", "j", "v", 9, 99, none, true⟩).2.1
    (by decide) (by decide),
   (revokeAll_spec 10 1 300
      [⟨1, 10, 100, 200, "a", "i", "u", 9, 99, none, true⟩,
       ⟨2, 20, 300, 400, "b", "j", "v", 9, 99, none, true⟩]
      ⟨2, 20, 300, 400, "b", "j", "v", 9, 99, none, true⟩).2.2
    (by decide) (by decide) (by decide) (by decide) (by decide)⟩

end Pnit
